import Mathlib

/-!
Verification of the delivery due-date projector of the Magic Yarn
volunteer-coordination app, embedded from `src/pages/DeliveryPlanner.tsx`.

Modelling conventions:
* A JavaScript `Date` produced by `new Date(year, monthIndex, day)` is
  represented by `CDate`, holding the absolute month index
  `ym = year * 12 + monthIndex` and the day of month.  For the calendar
  dates the planner constructs (day between 1 and the month length) the
  lexicographic order on `(ym, day)` coincides with `getTime()` order.
* Date strings from the database (`YYYY-MM-DD`) are modelled as already
  parsed `Option CDate` values; `null` is `none`.  `toMonthKey`, which
  slices the first seven characters of such a string, is modelled as
  taking the `ym` component of the parsed date.
* The `"YYYY-MM"` due-month key is modelled by the integer `ym`;
  `localeCompare` on such keys agrees with the integer order for
  four-digit years, and `localeCompare` on recipient names is modelled
  by the lexicographic order on `String`.
* JavaScript `Array.prototype.sort` is stable (ES2019); it is modelled
  by `List.insertionSort`, which is stable for the total preorder used.
* The `while (next <= end)` loop advances `next` by `frequency ≥ 1`
  months per iteration, so it runs at most `end.ym + 1 - next.ym`
  iterations; the loop is embedded with that iteration bound as
  structural fuel (`emitLoop_fuel_congr` below shows any fuel at least
  the bound yields the same list).
-/

namespace MagicYarn

/-- A calendar date: `ym` is the absolute month index
`year * 12 + monthIndex` (with `monthIndex ∈ [0, 11]` as in JS), and
`day` the day of month. -/
structure CDate where
  ym : Int
  day : Nat
deriving DecidableEq, Repr

/-- Absolute month index of year `y`, month `m` (1-based `m`). -/
def monthIndex (y m : Int) : Int :=
  y * 12 + (m - 1)

/-- Gregorian leap-year rule, as implemented by the JS `Date` calendar. -/
def isLeapYear (y : Int) : Bool :=
  (decide (y % 4 = 0) && decide (y % 100 ≠ 0)) || decide (y % 400 = 0)

/-- Number of days of the month with absolute index `ym`
(the JS `new Date(y, m + 1, 0).getDate()` computation). -/
def daysInMonthYM (ym : Int) : Nat :=
  let y := Int.fdiv ym 12
  let m := ym % 12
  if m = 1 then (if isLeapYear y then 29 else 28)
  else if m = 3 ∨ m = 5 ∨ m = 8 ∨ m = 10 then 30
  else 31

/-- `a.getTime() <= b.getTime()` for calendar dates. -/
def dateLE (a b : CDate) : Bool :=
  decide (a.ym < b.ym) || (decide (a.ym = b.ym) && decide (a.day ≤ b.day))

/-- `a.getTime() < b.getTime()` for calendar dates. -/
def dateLT (a b : CDate) : Bool :=
  decide (a.ym < b.ym) || (decide (a.ym = b.ym) && decide (a.day < b.day))

/-- `addMonthsKeepingDay` from the source: shift by `months` months and
take `dayOfMonth`, clamped to the target month's last day. -/
def addMonthsKeepingDay (value : CDate) (months : Int) (dayOfMonth : Nat) : CDate :=
  let ym := value.ym + months
  ⟨ym, min dayOfMonth (daysInMonthYM ym)⟩

/-- `endOfMonth` of the month with absolute index `ym`. -/
def endOfMonthYM (ym : Int) : CDate :=
  ⟨ym, daysInMonthYM ym⟩

/-- Recipient row as selected by the planner's `load` (the
`user_profiles(full_name)` join is the inner `Option String`). -/
structure PlannerRecipient where
  id : String
  name : String
  shipment_frequency_months : Option Int
  address : Option String
  city : Option String
  state : Option String
  zip : Option String
  assigned_user_id : Option String
  user_profiles : Option (Option String)
deriving DecidableEq, Repr

/-- Delivery row as selected by the planner's `load`. -/
structure PlannerDelivery where
  id : String
  recipient_id : String
  requested_date : Option CDate
  target_delivery_date : Option CDate
  shipped_date : Option CDate
  completed_date : Option CDate
deriving DecidableEq, Repr

/-- A projected due row (`DueRow` in the source).  `due_month_key`
models the `"YYYY-MM"` key as the absolute month index; the derived
presentation field `due_month_label` (pure locale formatting of the
key) is omitted. -/
structure DueRow where
  key : String
  recipient_id : String
  recipient_name : String
  chapter_leader : String
  frequency_months : Int
  last_delivery_date : Option CDate
  is_first_delivery : Bool
  due_month_key : Int
  create_target_date : CDate
  create_requested_date : CDate
  create_address : String
  create_coordinator_id : Option String
deriving DecidableEq, Repr

/-- Replace the first occurrence of `pat` in `s` by `rep`
(JS `String.prototype.replace` with a string pattern). -/
def replaceFirst (s pat rep : String) : String :=
  match s.splitOn pat with
  | [] => s
  | first :: rest =>
    if rest.isEmpty then s
    else first ++ rep ++ String.intercalate pat rest

/-- `formatAddress` from the source. -/
def formatAddress (address city state zip : Option String) : String :=
  let line1 := (address.getD ("")).trim
  let line2 :=
    (replaceFirst
      (String.intercalate (", ")
        (([city, state, zip].filterMap id).filter (fun s => s ≠ "")))
      (", ,") (",")).trim
  (String.intercalate (" | ") (([line1, line2]).filter (fun s => s ≠ ""))).trim

/-- The `chapter_leader` field:
`recipient.user_profiles?.full_name?.trim() || "Unassigned"`. -/
def chapterLeaderLabel (r : PlannerRecipient) : String :=
  let t := ((r.user_profiles.getD none).getD ("")).trim
  if t = "" then ("Unassigned") else t

/-- `deliveryAnchorDate` from the source: first non-null of target,
completed, shipped, requested date. -/
def deliveryAnchorDate (row : PlannerDelivery) : Option CDate :=
  (row.target_delivery_date.orElse
    (fun _ => (row.completed_date.orElse
      (fun _ => (row.shipped_date.orElse (fun _ => row.requested_date))))))

/-- The anchor scan of the projector: latest anchor date among the
recipient's deliveries (`if (!anchor || candidate > anchor)`). -/
def latestAnchor (history : List PlannerDelivery) : Option CDate :=
  history.foldl
    (fun anchor row =>
      match deliveryAnchorDate row with
      | none => anchor
      | some candidate =>
        match anchor with
        | none => some candidate
        | some a => if dateLT a candidate then some candidate else anchor)
    none

/-- Construction of one `DueRow` (the object literal pushed by the
projector loop).  The `key` models `` `${id}:${dueMonthKey}` `` with the
month key printed as an integer. -/
def mkDueRow (recipient : PlannerRecipient) (frequency : Int) (hasHistory : Bool)
    (anchor today : CDate) (isFirst : Bool) (next : CDate) : DueRow where
  key := recipient.id ++ (":") ++ toString next.ym
  recipient_id := recipient.id
  recipient_name := recipient.name
  chapter_leader := chapterLeaderLabel recipient
  frequency_months := frequency
  last_delivery_date := if hasHistory then some anchor else none
  is_first_delivery := !hasHistory && isFirst
  due_month_key := next.ym
  create_target_date := next
  create_requested_date := today
  create_address := formatAddress recipient.address recipient.city recipient.state recipient.zip
  create_coordinator_id := recipient.assigned_user_id

/-- The projector's `while (next <= end)` loop for one recipient.
`fuel` bounds the iteration count; `dueRows` supplies
`end.ym + 1 - next.ym`, which suffices since every step advances `ym`
by `freq ≥ 1` (see `emitLoop_fuel_congr`). -/
def emitLoop (startD endD : CDate) (freq : Int) (anchorDay : Nat)
    (existing : List Int) (mk : Bool → CDate → DueRow) :
    Nat → Bool → CDate → List DueRow
  | 0, _, _ => []
  | fuel + 1, isFirst, next =>
    if dateLE next endD then
      if dateLE startD next && !(existing.contains next.ym) then
        mk isFirst next ::
          emitLoop startD endD freq anchorDay existing mk fuel false
            (addMonthsKeepingDay next freq anchorDay)
      else
        emitLoop startD endD freq anchorDay existing mk fuel isFirst
          (addMonthsKeepingDay next freq anchorDay)
    else []

/-- The per-recipient body of the `dueRows` computation: frequency
guard, grouping (`byRecipient.get(recipient.id) ?? []` equals filtering
the delivery list by `recipient_id`), anchor scan, existing-month keys,
window bounds, and the stepping loop.  `Number.isFinite` is always true
for integers and is dropped. -/
def recipientDueRows (today : CDate) (horizonMonths : Nat)
    (deliveries : List PlannerDelivery) (recipient : PlannerRecipient) : List DueRow :=
  let frequency : Int := recipient.shipment_frequency_months.getD 0
  if frequency ≤ 0 then []
  else
    let history := deliveries.filter (fun d => d.recipient_id == recipient.id)
    let anchorOpt := latestAnchor history
    let hasHistory := anchorOpt.isSome
    let anchor := anchorOpt.getD today
    let existingMonthKeys := history.filterMap (fun row => row.target_delivery_date.map CDate.ym)
    let startD : CDate := ⟨today.ym, 1⟩
    let endD : CDate := endOfMonthYM (today.ym + (horizonMonths : Int) - 1)
    let nextStart :=
      if hasHistory then addMonthsKeepingDay anchor frequency anchor.day
      else ⟨anchor.ym, anchor.day⟩
    emitLoop startD endD frequency anchor.day existingMonthKeys
      (mkDueRow recipient frequency hasHistory anchor today)
      (Int.toNat (endD.ym + 1 - nextStart.ym)) true nextStart

/-- The final comparator of `dueRows`: due-month key ascending, ties
broken by recipient name ascending. -/
def rowLE (a b : DueRow) : Prop :=
  a.due_month_key < b.due_month_key ∨
    (a.due_month_key = b.due_month_key ∧ a.recipient_name ≤ b.recipient_name)

instance rowLE.decidableRel : DecidableRel rowLE := fun a b => by
  unfold rowLE
  infer_instance

instance rowLE.isTotal : IsTotal DueRow rowLE := by
  constructor
  intro a b
  rcases lt_trichotomy a.due_month_key b.due_month_key with h | h | h
  · exact Or.inl (Or.inl h)
  · rcases le_total a.recipient_name b.recipient_name with hn | hn
    · exact Or.inl (Or.inr ⟨h, hn⟩)
    · exact Or.inr (Or.inr ⟨h.symm, hn⟩)
  · exact Or.inr (Or.inl h)

instance rowLE.isTrans : IsTrans DueRow rowLE := by
  constructor
  intro a b c hab hbc
  rcases hab with hab | ⟨hab, han⟩
  · rcases hbc with hbc | ⟨hbc, _⟩
    · exact Or.inl (hab.trans hbc)
    · exact Or.inl (hbc ▸ hab)
  · rcases hbc with hbc | ⟨hbc, hbn⟩
    · exact Or.inl (hab ▸ hbc)
    · exact Or.inr ⟨hab.trans hbc, han.trans hbn⟩

/-- The `dueRows` `useMemo`: concatenate the per-recipient rows in
recipient order and sort with the stable comparator. -/
def dueRows (recipients : List PlannerRecipient) (deliveries : List PlannerDelivery)
    (horizonMonths : Nat) (today : CDate) : List DueRow :=
  List.insertionSort rowLE
    ((recipients.map (recipientDueRows today horizonMonths deliveries)).flatten)

/-- `HORIZON_OPTIONS` from the source. -/
def HORIZON_OPTIONS : List Nat := [1, 3, 6, 12]

/-- The component state that `load` writes (recipients, deliveries and
the user-visible error message). -/
structure PlannerState where
  recipients : List PlannerRecipient
  deliveries : List PlannerDelivery
  error : Option String
deriving DecidableEq, Repr

/-- The `load` routine as a function of the two fetch outcomes.  The
second argument is the outcome the deliveries fetch would return; it is
only consulted when the recipients fetch succeeds with a non-empty
list, as in the source.  The `user_profiles` array/object normalisation
is a data-shape fix and recipients are modelled as already normalised. -/
def load (recipientsRes : Except String (List PlannerRecipient))
    (deliveriesRes : Except String (List PlannerDelivery)) : PlannerState :=
  match recipientsRes with
  | Except.error e => ⟨[], [], some e⟩
  | Except.ok recs =>
    if recs.isEmpty then ⟨recs, [], none⟩
    else
      match deliveriesRes with
      | Except.error e => ⟨recs, [], some e⟩
      | Except.ok ds => ⟨recs, ds, none⟩

/-- A row of the `createSelected` re-check query
(`select("recipient_id, target_delivery_date")`). -/
structure ExistingDeliveryRow where
  recipient_id : String
  target_delivery_date : Option CDate
deriving DecidableEq, Repr

/-- Payload row inserted into `deliveries` (the wall-clock `updated_at`
timestamp is omitted). -/
structure InsertPayload where
  recipient_id : String
  recipient_contact_slot : Option String
  requested_date : CDate
  target_delivery_date : CDate
  shipped_date : Option CDate
  tracking_number : Option String
  completed_date : Option CDate
  status_id : Nat
  coordinator_id : Option String
  wigs : Nat
  beanies : Nat
  address : String
  notes : Option String
deriving DecidableEq, Repr

/-- The payload built from one due row. -/
def toInsertPayload (row : DueRow) : InsertPayload where
  recipient_id := row.recipient_id
  recipient_contact_slot := none
  requested_date := row.create_requested_date
  target_delivery_date := row.create_target_date
  shipped_date := none
  tracking_number := none
  completed_date := none
  status_id := 1
  coordinator_id := row.create_coordinator_id
  wigs := 0
  beanies := 0
  address := row.create_address
  notes := none

/-- `toCreate` in `createSelected`: the selected rows restricted to the
selectable ones (non-empty formatted address). -/
def plannerToCreate (sortedDueRows : List DueRow) (selectedKeys : List String) : List DueRow :=
  let selectedRows := sortedDueRows.filter (fun row => selectedKeys.contains row.key)
  let selectableKeys := (sortedDueRows.filter (fun row => row.create_address ≠ "")).map DueRow.key
  selectedRows.filter (fun row => selectableKeys.contains row.key)

/-- `existingRecipientMonthSet`: recipient/month pairs of the re-checked
deliveries (rows with a falsy recipient id or no month key are
skipped, as in the source). -/
def existingPairSet (rows : List ExistingDeliveryRow) : List (String × Int) :=
  rows.filterMap (fun row =>
    if row.recipient_id = "" then none
    else row.target_delivery_date.map (fun c => (row.recipient_id, c.ym)))

/-- `dedupedToCreate`: drop the rows whose recipient+month pair exists
in the re-checked state. -/
def dedupedRows (toCreate : List DueRow) (pairs : List (String × Int)) : List DueRow :=
  toCreate.filter (fun row => !(pairs.contains (row.recipient_id, row.due_month_key)))

/-- The success message template of `createSelected` (including the
source's `delivery`/`deliveryies` pluralisation). -/
def createdMessage (created skipped : Nat) : String :=
  ("Created ") ++ toString created ++ (" delivery") ++
    (if created = 1 then ("") else ("ies")) ++
    (if 0 < skipped then (" (") ++ toString skipped ++ (" skipped as already existing)") else ("")) ++
    (".")

/-- The outcome of one `createSelected` run: the error and success
messages that end up on screen, and the payload rows inserted. -/
structure CreateResult where
  error : Option String
  successMessage : Option String
  inserted : List InsertPayload
deriving DecidableEq, Repr

/-- `createSelected` as a function of its inputs: the permission flag,
the rows on screen, the selected keys, the outcome of the re-check
query, and the insert outcome (`none` meaning the insert succeeded; the
insert is only attempted when the deduplicated list is non-empty). -/
def createSelected (canEdit : Bool) (sortedDueRows : List DueRow) (selectedKeys : List String)
    (existingRes : Except String (List ExistingDeliveryRow))
    (insertError : Option String) : CreateResult :=
  if !canEdit then ⟨some ("Not authorized to create deliveries."), none, []⟩
  else
    let toCreate := plannerToCreate sortedDueRows selectedKeys
    if toCreate.isEmpty then
      ⟨some ("Select at least one row with a recipient address."), none, []⟩
    else
      match existingRes with
      | Except.error e => ⟨some e, none, []⟩
      | Except.ok exRows =>
        let deduped := dedupedRows toCreate (existingPairSet exRows)
        if deduped.isEmpty then
          ⟨some ("No new deliveries to create. Selected rows already exist."), none, []⟩
        else
          match insertError with
          | some e => ⟨some e, none, []⟩
          | none =>
            ⟨none, some (createdMessage deduped.length (toCreate.length - deduped.length)),
              deduped.map toInsertPayload⟩

/-! Concrete fixtures used by counterexamples and witnesses. -/

/-- A recipient with monthly frequency and a mailing address. -/
def recipC1 : PlannerRecipient :=
  ⟨"r-c1", "Recipient C1", some 1, some ("1 Main St"), none, none, none, none, none⟩

/-- A recipient with frequency 3 (clamping example). -/
def recipC3 : PlannerRecipient :=
  ⟨"r-c3", "Recipient C3", some 3, none, none, none, none, none, none⟩

/-- One delivery of `recipC3` targeting 2024-01-31. -/
def delivC3 : PlannerDelivery :=
  ⟨"d-c3", "r-c3", none, some ⟨monthIndex 2024 1, 31⟩, none, none⟩

/-- A recipient with frequency 0. -/
def recipZero : PlannerRecipient :=
  ⟨"r-z", "Recipient Zero", some 0, none, none, none, none, none, none⟩

/-- A delivery of `recipC1` with all four dates null. -/
def delivNull : PlannerDelivery :=
  ⟨"d-null", "r-c1", none, none, none, none⟩

/-- A due row whose recipient+month pair is re-checked as existing. -/
def rowC2 : DueRow :=
  ⟨"r-c2:24288", "r-c2", "Recipient C2", "Unassigned", 3, none, true,
    monthIndex 2024 1, ⟨monthIndex 2024 1, 15⟩, ⟨monthIndex 2024 1, 10⟩, "1 Main St", none⟩

/-- A due row (same recipient, March 2024) not present in the re-check. -/
def rowC2b : DueRow :=
  ⟨"r-c2:24290", "r-c2", "Recipient C2", "Unassigned", 3, none, false,
    monthIndex 2024 3, ⟨monthIndex 2024 3, 15⟩, ⟨monthIndex 2024 1, 10⟩, "1 Main St", none⟩

/-- Re-check row: recipient `r-c2` already has a January 2024 delivery. -/
def exC2 : ExistingDeliveryRow := ⟨"r-c2", some ⟨monthIndex 2024 1, 5⟩⟩

/-- The due row the projector emits for `recipC3`/`delivC3` in April 2024
(target clamped to the 30th). -/
def rowC3 : DueRow :=
  mkDueRow recipC3 3 true ⟨monthIndex 2024 1, 31⟩ ⟨monthIndex 2024 1, 15⟩ true
    ⟨monthIndex 2024 4, 30⟩

/-! Basic lemmas about the date model. -/

lemma dateLE_iff {a b : CDate} :
    dateLE a b = true ↔ (a.ym < b.ym ∨ (a.ym = b.ym ∧ a.day ≤ b.day)) := by
  simp [dateLE]

lemma dateLE_eq_false_of_lt {a b : CDate} (h : b.ym < a.ym) : dateLE a b = false := by
  simp [dateLE]
  omega

lemma addMonthsKeepingDay_ym (d : CDate) (m : Int) (day : Nat) :
    (addMonthsKeepingDay d m day).ym = d.ym + m := rfl

lemma addMonthsKeepingDay_valid (d : CDate) (m : Int) (day : Nat) :
    (addMonthsKeepingDay d m day).day ≤ daysInMonthYM (addMonthsKeepingDay d m day).ym := by
  simp [addMonthsKeepingDay]

lemma endOfMonthYM_ym (m : Int) : (endOfMonthYM m).ym = m := rfl

/-! Lemmas about the stepping loop. -/

section EmitLoopLemmas

variable (startD endD : CDate) (freq : Int) (anchorDay : Nat)
variable (existing : List Int) (mk : Bool → CDate → DueRow)

lemma emitLoop_stop {next : CDate} (h : dateLE next endD = false) (fuel : Nat) (flag : Bool) :
    emitLoop startD endD freq anchorDay existing mk fuel flag next = [] := by
  cases fuel with
  | zero => rfl
  | succ f => simp [emitLoop, h]

lemma emitLoop_mem (hfreq : 0 ≤ freq) :
    ∀ (fuel : Nat) (flag : Bool) (next row : _),
      row ∈ emitLoop startD endD freq anchorDay existing mk fuel flag next →
      ∃ b d, row = mk b d ∧ existing.contains d.ym = false ∧
        dateLE startD d = true ∧ dateLE d endD = true ∧ next.ym ≤ d.ym := by
  intro fuel
  induction fuel with
  | zero => intro flag next row h; simp [emitLoop] at h
  | succ f ih =>
    intro flag next row h
    simp only [emitLoop] at h
    by_cases h1 : dateLE next endD = true
    · simp only [h1, if_true] at h
      by_cases h2 : (dateLE startD next && !(existing.contains next.ym)) = true
      · simp only [h2, if_true, List.mem_cons] at h
        rcases h with h | h
        · obtain ⟨h2a, h2b⟩ : dateLE startD next = true ∧ existing.contains next.ym = false := by
            simpa using h2
          exact ⟨flag, next, h, h2b, h2a, h1, le_refl _⟩
        · obtain ⟨b, d, hrow, hc, hs, he, hge⟩ := ih false _ row h
          refine ⟨b, d, hrow, hc, hs, he, ?_⟩
          rw [addMonthsKeepingDay_ym] at hge
          omega
      · simp only [Bool.not_eq_true] at h2
        simp only [h2, Bool.false_eq_true, if_false] at h
        obtain ⟨b, d, hrow, hc, hs, he, hge⟩ := ih flag _ row h
        refine ⟨b, d, hrow, hc, hs, he, ?_⟩
        rw [addMonthsKeepingDay_ym] at hge
        omega
    · simp only [Bool.not_eq_true] at h1
      simp only [h1, Bool.false_eq_true, if_false] at h
      exact absurd h (List.not_mem_nil row)

lemma emitLoop_flag_false (hmk : ∀ d, (mk false d).is_first_delivery = false) :
    ∀ (fuel : Nat) (next row : _),
      row ∈ emitLoop startD endD freq anchorDay existing mk fuel false next →
      row.is_first_delivery = false := by
  intro fuel
  induction fuel with
  | zero => intro next row h; simp [emitLoop] at h
  | succ f ih =>
    intro next row h
    simp only [emitLoop] at h
    by_cases h1 : dateLE next endD = true
    · simp only [h1, if_true] at h
      by_cases h2 : (dateLE startD next && !(existing.contains next.ym)) = true
      · simp only [h2, if_true, List.mem_cons] at h
        rcases h with h | h
        · rw [h]; exact hmk next
        · exact ih _ row h
      · simp only [Bool.not_eq_true] at h2
        simp only [h2, Bool.false_eq_true, if_false] at h
        exact ih _ row h
    · simp only [Bool.not_eq_true] at h1
      simp only [h1, Bool.false_eq_true, if_false] at h
      exact absurd h (List.not_mem_nil row)

lemma emitLoop_fuel_congr (hfreq : 1 ≤ freq) :
    ∀ (F G : Nat) (flag : Bool) (next : CDate),
      Int.toNat (endD.ym + 1 - next.ym) ≤ F → Int.toNat (endD.ym + 1 - next.ym) ≤ G →
      emitLoop startD endD freq anchorDay existing mk F flag next =
        emitLoop startD endD freq anchorDay existing mk G flag next := by
  intro F
  induction F with
  | zero =>
    intro G flag next hF hG
    have h : dateLE next endD = false := dateLE_eq_false_of_lt (by omega)
    rw [emitLoop_stop startD endD freq anchorDay existing mk h,
      emitLoop_stop startD endD freq anchorDay existing mk h]
  | succ f ih =>
    intro G flag next hF hG
    by_cases hstop : endD.ym < next.ym
    · have h : dateLE next endD = false := dateLE_eq_false_of_lt hstop
      rw [emitLoop_stop startD endD freq anchorDay existing mk h,
        emitLoop_stop startD endD freq anchorDay existing mk h]
    · obtain ⟨g, rfl⟩ : ∃ g, G = g + 1 := ⟨G - 1, by omega⟩
      simp only [emitLoop]
      have hrec : Int.toNat (endD.ym + 1 - (addMonthsKeepingDay next freq anchorDay).ym) ≤ f := by
        rw [addMonthsKeepingDay_ym]
        omega
      have hrec2 : Int.toNat (endD.ym + 1 - (addMonthsKeepingDay next freq anchorDay).ym) ≤ g := by
        rw [addMonthsKeepingDay_ym]
        omega
      by_cases h1 : dateLE next endD = true
      · simp only [h1, if_true]
        by_cases h2 : (dateLE startD next && !(existing.contains next.ym)) = true
        · simp only [h2, if_true]
          rw [ih g false _ hrec hrec2]
        · simp only [Bool.not_eq_true] at h2
          simp only [h2, Bool.false_eq_true, if_false]
          exact ih g flag _ hrec hrec2
      · simp only [Bool.not_eq_true] at h1
        simp only [h1, Bool.false_eq_true, if_false]

lemma emitLoop_extend (m1 m2 : Int) (hm : m1 ≤ m2) (hfreq : 0 ≤ freq)
    (hmk : ∀ b d, (mk b d).due_month_key = d.ym) :
    ∀ (F : Nat) (flag : Bool) (next : CDate), next.day ≤ daysInMonthYM next.ym →
      ∃ extra,
        emitLoop startD (endOfMonthYM m2) freq anchorDay existing mk F flag next =
          emitLoop startD (endOfMonthYM m1) freq anchorDay existing mk F flag next ++ extra ∧
        ∀ row ∈ extra, m1 < row.due_month_key := by
  intro F
  induction F with
  | zero => intro flag next hv; exact ⟨[], rfl, by simp⟩
  | succ f ih =>
    intro flag next hv
    by_cases h1 : dateLE next (endOfMonthYM m1) = true
    · have h2 : dateLE next (endOfMonthYM m2) = true := by
        rcases lt_or_eq_of_le hm with hlt | heq
        · rw [dateLE_iff] at h1 ⊢
          rw [endOfMonthYM_ym] at h1 ⊢
          left
          omega
        · rw [← heq]
          exact h1
      obtain ⟨extra, heq, hextra⟩ :=
        ih flag (addMonthsKeepingDay next freq anchorDay) (addMonthsKeepingDay_valid _ _ _)
      obtain ⟨extra2, heq2, hextra2⟩ :=
        ih false (addMonthsKeepingDay next freq anchorDay) (addMonthsKeepingDay_valid _ _ _)
      simp only [emitLoop, h1, h2, if_true]
      by_cases hcond : (dateLE startD next && !(existing.contains next.ym)) = true
      · simp only [hcond, if_true]
        exact ⟨extra2, by rw [heq2, List.cons_append], hextra2⟩
      · simp only [Bool.not_eq_true] at hcond
        simp only [hcond, Bool.false_eq_true, if_false]
        exact ⟨extra, heq, hextra⟩
    · simp only [Bool.not_eq_true] at h1
      rw [emitLoop_stop startD (endOfMonthYM m1) freq anchorDay existing mk h1]
      refine ⟨emitLoop startD (endOfMonthYM m2) freq anchorDay existing mk (f + 1) flag next,
        by simp, ?_⟩
      have hym : m1 < next.ym := by
        have hA : ¬(next.ym < m1 ∨ (next.ym = m1 ∧ next.day ≤ daysInMonthYM m1)) := by
          intro hcontra
          have : dateLE next (endOfMonthYM m1) = true := by
            rw [dateLE_iff]
            exact hcontra
          rw [h1] at this
          exact Bool.false_ne_true this
      -- from the negation: next.ym is not below m1, and if equal the day
      -- bound would contradict validity of next.
        push_neg at hA
        rcases eq_or_ne next.ym m1 with he | he
        · have hd := hA.2 he
          rw [he] at hv
          omega
        · omega
      intro row hrow
      obtain ⟨b, d, hr, _, _, _, hge⟩ :=
        emitLoop_mem startD (endOfMonthYM m2) freq anchorDay existing mk hfreq _ _ _ row hrow
      rw [hr, hmk]
      omega

end EmitLoopLemmas

/-! Stability lemmas for the final sort: inserting an element that
compares strictly above a prefix, or at-or-below a suffix, passes over
it unchanged; a list whose elements split into a strictly lower and a
strictly higher class sorts blockwise. -/

section SortSplitLemmas

variable {α : Type} (r : α → α → Prop) [DecidableRel r]

lemma orderedInsert_append_left (x : α) (u v : List α) (h : ∀ b ∈ v, r x b) :
    List.orderedInsert r x (u ++ v) = List.orderedInsert r x u ++ v := by
  induction u with
  | nil =>
    cases v with
    | nil => rfl
    | cons b v => simp [List.orderedInsert, h b (by simp)]
  | cons c u ih =>
    by_cases hc : r x c
    · simp [List.orderedInsert, hc]
    · simp [List.orderedInsert, hc, ih]

lemma orderedInsert_append_right (x : α) (u v : List α) (h : ∀ b ∈ u, ¬ r x b) :
    List.orderedInsert r x (u ++ v) = u ++ List.orderedInsert r x v := by
  induction u with
  | nil => rfl
  | cons c u ih =>
    simp only [List.cons_append, List.orderedInsert, if_neg (h c (by simp))]
    exact congrArg (List.cons c) (ih (fun b hb => h b (by simp [hb])))

lemma insertionSort_split (P : α → Bool)
    (hPQ : ∀ a b, P a = true → P b = false → r a b)
    (hQP : ∀ a b, P a = false → P b = true → ¬ r a b) :
    ∀ l : List α, List.insertionSort r l =
      List.insertionSort r (l.filter P) ++
        List.insertionSort r (l.filter (fun a => !(P a))) := by
  intro l
  induction l with
  | nil => rfl
  | cons x l ih =>
    simp only [List.insertionSort, ih]
    cases hx : P x with
    | true =>
      rw [orderedInsert_append_left r x _ _ ?vh]
      · simp [List.filter, hx, List.insertionSort]
      case vh =>
        intro b hb
        have hbm : b ∈ l.filter (fun a => !(P a)) := (List.perm_insertionSort r _).subset hb
        have hPb : P b = false := by
          have := (List.mem_filter.mp hbm).2
          simpa using this
        exact hPQ x b hx hPb
    | false =>
      rw [orderedInsert_append_right r x _ _ ?vh]
      · simp [List.filter, hx, List.insertionSort]
      case vh =>
        intro b hb
        have hbm : b ∈ l.filter P := (List.perm_insertionSort r _).subset hb
        exact hQP x b hx (List.mem_filter.mp hbm).2

end SortSplitLemmas

lemma filter_flatten_map {γ : Type} (cs : List γ) (f g : γ → List DueRow) (P : DueRow → Bool)
    (h : ∀ c ∈ cs, (f c).filter P = g c) :
    ((cs.map f).flatten).filter P = (cs.map g).flatten := by
  induction cs with
  | nil => rfl
  | cons c cs ih =>
    simp only [List.map_cons, List.flatten_cons, List.filter_append, h c (by simp)]
    rw [ih (fun c hc => h c (by simp [hc]))]

/-! Lemmas about the per-recipient projection. -/

lemma recipientDueRows_mem (today : CDate) (h : Nat) (ds : List PlannerDelivery)
    (rec : PlannerRecipient) (row : DueRow)
    (hrow : row ∈ recipientDueRows today h ds rec) :
    0 < rec.shipment_frequency_months.getD 0 ∧
      row.recipient_id = rec.id ∧
      ((ds.filter (fun d => d.recipient_id == rec.id)).filterMap
        (fun r => r.target_delivery_date.map CDate.ym)).contains row.due_month_key = false ∧
      today.ym ≤ row.due_month_key ∧
      row.due_month_key ≤ today.ym + (h : Int) - 1 := by
  simp only [recipientDueRows] at hrow
  by_cases hf : rec.shipment_frequency_months.getD 0 ≤ 0
  · rw [if_pos hf] at hrow
    exact absurd hrow (List.not_mem_nil row)
  · rw [if_neg hf] at hrow
    obtain ⟨b, d, hr, hc, hs, he, _⟩ :=
      emitLoop_mem _ _ _ _ _ _ (by omega) _ _ _ _ hrow
    rw [dateLE_iff] at hs he
    subst hr
    refine ⟨by omega, rfl, hc, ?_, ?_⟩
    · show today.ym ≤ d.ym
      rcases hs with hs | ⟨hs, _⟩
      · exact le_of_lt hs
      · exact le_of_eq hs
    · show d.ym ≤ today.ym + (h : Int) - 1
      rw [endOfMonthYM_ym] at he
      rcases he with he | ⟨he, _⟩
      · exact le_of_lt he
      · exact le_of_eq he

lemma recipientDueRows_extend (today : CDate) (h1 h2 : Nat) (hle : h1 ≤ h2)
    (hv : today.day ≤ daysInMonthYM today.ym)
    (ds : List PlannerDelivery) (rec : PlannerRecipient) :
    ∃ extra, recipientDueRows today h2 ds rec = recipientDueRows today h1 ds rec ++ extra ∧
      ∀ row ∈ extra, today.ym + (h1 : Int) - 1 < row.due_month_key := by
  simp only [recipientDueRows]
  by_cases hf : rec.shipment_frequency_months.getD 0 ≤ 0
  · rw [if_pos hf, if_pos hf]
    exact ⟨[], rfl, by simp⟩
  · rw [if_neg hf, if_neg hf]
    set freq := rec.shipment_frequency_months.getD 0 with hfreq
    set history := ds.filter (fun d => d.recipient_id == rec.id) with hhistory
    set anchorOpt := latestAnchor history with hanchorOpt
    set anchor := anchorOpt.getD today with hanchor
    set existing := history.filterMap (fun r => r.target_delivery_date.map CDate.ym) with hex
    set nextStart :=
      (if anchorOpt.isSome then addMonthsKeepingDay anchor freq anchor.day
        else ⟨anchor.ym, anchor.day⟩ : CDate) with hns
    have hvalid : nextStart.day ≤ daysInMonthYM nextStart.ym := by
      rw [hns]
      by_cases hh : anchorOpt.isSome
      · rw [if_pos hh]
        exact addMonthsKeepingDay_valid _ _ _
      · rw [if_neg hh]
        rw [hanchor]
        cases hao : anchorOpt with
        | some a => exact absurd (by rw [hao]; rfl) hh
        | none => simpa using hv
    have hfc :=
      emitLoop_fuel_congr ⟨today.ym, 1⟩ (endOfMonthYM (today.ym + (h1 : Int) - 1)) freq
        anchor.day existing (mkDueRow rec freq anchorOpt.isSome anchor today) (by omega)
        (Int.toNat ((endOfMonthYM (today.ym + (h1 : Int) - 1)).ym + 1 - nextStart.ym))
        (Int.toNat ((endOfMonthYM (today.ym + (h2 : Int) - 1)).ym + 1 - nextStart.ym))
        true nextStart (le_refl _)
        (by rw [endOfMonthYM_ym, endOfMonthYM_ym]; omega)
    rw [hfc]
    exact
      emitLoop_extend ⟨today.ym, 1⟩ freq anchor.day existing
        (mkDueRow rec freq anchorOpt.isSome anchor today)
        (today.ym + (h1 : Int) - 1) (today.ym + (h2 : Int) - 1) (by omega) (by omega)
        (fun _ _ => rfl) _ true nextStart hvalid

lemma latestAnchor_eq_none (l : List PlannerDelivery)
    (h : ∀ d ∈ l, deliveryAnchorDate d = none) : latestAnchor l = none := by
  induction l with
  | nil => rfl
  | cons d l ih =>
    simp only [latestAnchor, List.foldl_cons, h d (by simp)]
    exact ih (fun x hx => h x (by simp [hx]))

/-- A recipient whose filtered delivery history is empty: the loop
starts at today, emits a first row for the current month, and every
later row carries a false first-delivery flag. -/
lemma recipientDueRows_fresh (today : CDate) (h : Nat) (ds : List PlannerDelivery)
    (rec : PlannerRecipient) (f : Int)
    (hf : rec.shipment_frequency_months = some f) (hpos : 0 < f)
    (hhist : ds.filter (fun d => d.recipient_id == rec.id) = [])
    (hd1 : 1 ≤ today.day) (hd2 : today.day ≤ daysInMonthYM today.ym) (hh : 1 ≤ h) :
    ∃ rest, recipientDueRows today h ds rec =
        mkDueRow rec f false today today true today :: rest ∧
      ∀ row ∈ rest, row.is_first_delivery = false := by
  obtain ⟨tym, tday⟩ := today
  simp only [recipientDueRows, hf, Option.getD_some, hhist]
  rw [if_neg (not_le.mpr hpos)]
  simp only [latestAnchor, List.foldl_nil, List.filterMap_nil, Option.isSome_none,
    Bool.false_eq_true, if_false, Option.getD_none]
  have hfe : ((endOfMonthYM (tym + (h : Int) - 1)).ym + 1 -
      (CDate.mk tym tday).ym).toNat = h := by
    rw [endOfMonthYM_ym]
    simp only []
    omega
  rw [hfe]
  obtain ⟨k, rfl⟩ : ∃ k, h = k + 1 := ⟨h - 1, by omega⟩
  simp only [emitLoop]
  have hc1 : dateLE ⟨tym, tday⟩ (endOfMonthYM (tym + ((k + 1 : Nat) : Int) - 1)) = true := by
    rw [dateLE_iff]
    by_cases hk : tym + ((k + 1 : Nat) : Int) - 1 = tym
    · right
      refine ⟨hk.symm, ?_⟩
      show tday ≤ (endOfMonthYM (tym + ((k + 1 : Nat) : Int) - 1)).day
      rw [show endOfMonthYM (tym + ((k + 1 : Nat) : Int) - 1) = endOfMonthYM tym by rw [hk]]
      exact hd2
    · left
      rw [endOfMonthYM_ym]
      show tym < tym + ((k + 1 : Nat) : Int) - 1
      omega
  have hc2 : (dateLE ⟨tym, 1⟩ ⟨tym, tday⟩ && !(([] : List Int).contains tym)) = true := by
    simp [dateLE, hd1]
  rw [if_pos hc1, if_pos hc2]
  refine ⟨_, rfl, ?_⟩
  intro row hrow
  exact emitLoop_flag_false _ _ _ _ _ _ (fun d => rfl) _ _ row hrow

/-! Claim theorems. -/

/-- C1 counterexample: when the recipients fetch succeeds (one
recipient with monthly frequency) and the deliveries fetch fails, the
state after `load` carries the error message but retains the fetched
recipients, and the projection computed from that state is non-empty —
refuting the claim that any data-fetch failure yields an empty result
set. -/
theorem c1_counterexample :
    (load (Except.ok [recipC1]) (Except.error ("boom"))).error = some ("boom") ∧
      dueRows (load (Except.ok [recipC1]) (Except.error ("boom"))).recipients
        (load (Except.ok [recipC1]) (Except.error ("boom"))).deliveries
        6 ⟨monthIndex 2024 1, 15⟩ ≠ [] := by
  constructor
  · rfl
  · decide

/-- C1 (amended): a recipients-fetch failure aborts the projection with
an empty result set (no recipients, no deliveries, hence no due rows)
and sets the user-visible error message; a deliveries-fetch failure
sets the error message and clears the deliveries, but retains the
already-fetched recipients, so the projection over the resulting state
need not be empty. -/
theorem load_failure_behavior (recs : List PlannerRecipient) (e : String)
    (delRes : Except String (List PlannerDelivery)) (hne : recs ≠ []) :
    ((load (Except.error e) delRes).recipients = [] ∧
      (load (Except.error e) delRes).deliveries = [] ∧
      (load (Except.error e) delRes).error = some e ∧
      ∀ (h : Nat) (t : CDate),
        dueRows (load (Except.error e) delRes).recipients
          (load (Except.error e) delRes).deliveries h t = []) ∧
    ((load (Except.ok recs) (Except.error e)).error = some e ∧
      (load (Except.ok recs) (Except.error e)).deliveries = [] ∧
      (load (Except.ok recs) (Except.error e)).recipients = recs) := by
  refine ⟨⟨rfl, rfl, rfl, fun h t => rfl⟩, ?_⟩
  have hni : recs.isEmpty = false := by
    simpa using hne
  simp [load, hni]

/-- Witness for `load_failure_behavior` at a concrete non-empty
recipient list. -/
theorem load_failure_behavior_witness :
    ([recipC1] ≠ ([] : List PlannerRecipient)) ∧
      (load (Except.ok [recipC1]) (Except.error ("boom"))).error = some ("boom") :=
  ⟨by decide,
    ((load_failure_behavior [recipC1] ("boom") (Except.ok []) (by decide)).2).1⟩

/-- C2 counterexample: with one selected selectable row whose
recipient+month pair exists in the re-checked state, `createSelected`
sets an error message and no success message (so the all-duplicates
case is not reported as a skip count). -/
theorem c2_counterexample :
    (createSelected true [rowC2] [("r-c2:24288")] (Except.ok [exC2]) none).successMessage =
        none ∧
      (createSelected true [rowC2] [("r-c2:24288")] (Except.ok [exC2]) none).error =
        some ("No new deliveries to create. Selected rows already exist.") ∧
      (createSelected true [rowC2] [("r-c2:24288")] (Except.ok [exC2]) none).inserted = [] := by
  exact ⟨rfl, rfl, rfl⟩

/-- C9: a recipient whose `shipment_frequency_months` is null, zero or
negative contributes no due rows: its per-recipient projection is empty
and removing it from the recipient list leaves the projector output
unchanged. -/
theorem dueRows_nonpositive_frequency (today : CDate) (h : Nat)
    (ds : List PlannerDelivery) (rec : PlannerRecipient) (rs : List PlannerRecipient)
    (hfreq : rec.shipment_frequency_months = none ∨
      ∃ f, rec.shipment_frequency_months = some f ∧ f ≤ 0) :
    recipientDueRows today h ds rec = [] ∧
      dueRows (rec :: rs) ds h today = dueRows rs ds h today := by
  have hz : rec.shipment_frequency_months.getD 0 ≤ 0 := by
    rcases hfreq with hf | ⟨f, hf, hle⟩ <;> simp [hf]
    exact hle
  have h1 : recipientDueRows today h ds rec = [] := by
    simp only [recipientDueRows]
    rw [if_pos hz]
  refine ⟨h1, ?_⟩
  simp only [dueRows, List.map_cons, List.flatten_cons, h1, List.nil_append]

/-- Witness for `dueRows_nonpositive_frequency` at a zero-frequency
recipient. -/
theorem dueRows_nonpositive_frequency_witness :
    (recipZero.shipment_frequency_months = none ∨
      ∃ f, recipZero.shipment_frequency_months = some f ∧ f ≤ 0) ∧
      recipientDueRows ⟨monthIndex 2024 1, 15⟩ 6 [] recipZero = [] :=
  ⟨Or.inr ⟨0, rfl, le_refl 0⟩,
    (dueRows_nonpositive_frequency ⟨monthIndex 2024 1, 15⟩ 6 [] recipZero []
      (Or.inr ⟨0, rfl, le_refl 0⟩)).1⟩

/-- C7: the projector output is sorted: pairwise, an earlier row has a
strictly smaller due-month key, or the same key and a
less-than-or-equal recipient name; in particular due-month keys are
pairwise non-decreasing. -/
theorem dueRows_sorted_output (rs : List PlannerRecipient) (ds : List PlannerDelivery)
    (h : Nat) (t : CDate) :
    List.Sorted rowLE (dueRows rs ds h t) ∧
      List.Pairwise (fun a b : DueRow => a.due_month_key ≤ b.due_month_key)
        (dueRows rs ds h t) := by
  have hs : List.Sorted rowLE (dueRows rs ds h t) := List.sorted_insertionSort rowLE _
  refine ⟨hs, hs.imp ?_⟩
  intro a b hab
  rcases hab with hab | ⟨hab, _⟩
  · exact le_of_lt hab
  · exact le_of_eq hab

/-- C8: the projector is a pure function of recipients, deliveries,
horizon and the "today" snapshot: equal inputs give equal output
lists. -/
theorem dueRows_deterministic (rs1 rs2 : List PlannerRecipient)
    (ds1 ds2 : List PlannerDelivery) (h1 h2 : Nat) (t1 t2 : CDate)
    (hr : rs1 = rs2) (hd : ds1 = ds2) (hh : h1 = h2) (ht : t1 = t2) :
    dueRows rs1 ds1 h1 t1 = dueRows rs2 ds2 h2 t2 := by
  rw [hr, hd, hh, ht]

/-- Witness for `dueRows_deterministic` at concrete inputs. -/
theorem dueRows_deterministic_witness :
    dueRows [recipC1] [] 6 ⟨monthIndex 2024 1, 15⟩ =
      dueRows [recipC1] [] 6 ⟨monthIndex 2024 1, 15⟩ :=
  dueRows_deterministic [recipC1] [recipC1] [] [] 6 6
    ⟨monthIndex 2024 1, 15⟩ ⟨monthIndex 2024 1, 15⟩ rfl rfl rfl rfl

/-- C3: for a recipient with frequency 3 and one delivery targeting
2024-01-31, with "today" in January 2024 (so the horizon window begins
2024-01-01) and a horizon of 6 or 12 months, the first emitted due row
has target date 2024-04-30 (day clamped to April's last day), not
2024-05-01. -/
theorem dueRows_clamps_day_of_month (today : CDate) (h : Nat)
    (hty : today.ym = monthIndex 2024 1) (hh : h = 6 ∨ h = 12) :
    (dueRows [recipC3] [delivC3] h today).head?.map DueRow.create_target_date =
        some ⟨monthIndex 2024 4, 30⟩ ∧
      (dueRows [recipC3] [delivC3] h today).head?.map DueRow.create_target_date ≠
        some ⟨monthIndex 2024 5, 1⟩ := by
  obtain ⟨tym, tday⟩ := today
  have htym : tym = monthIndex 2024 1 := hty
  subst htym
  rcases hh with rfl | rfl
  · have hfst : (dueRows [recipC3] [delivC3] 6 ⟨monthIndex 2024 1, tday⟩).head?.map
        DueRow.create_target_date = some ⟨monthIndex 2024 4, 30⟩ := rfl
    exact ⟨hfst, by rw [hfst]; decide⟩
  · have hfst : (dueRows [recipC3] [delivC3] 12 ⟨monthIndex 2024 1, tday⟩).head?.map
        DueRow.create_target_date = some ⟨monthIndex 2024 4, 30⟩ := rfl
    exact ⟨hfst, by rw [hfst]; decide⟩

/-- Witness for `dueRows_clamps_day_of_month` at today = 2024-01-15,
horizon 6. -/
theorem dueRows_clamps_day_of_month_witness :
    ((CDate.mk (monthIndex 2024 1) 15).ym = monthIndex 2024 1) ∧
      (dueRows [recipC3] [delivC3] 6 ⟨monthIndex 2024 1, 15⟩).head?.map
          DueRow.create_target_date = some ⟨monthIndex 2024 4, 30⟩ :=
  ⟨rfl,
    (dueRows_clamps_day_of_month ⟨monthIndex 2024 1, 15⟩ 6 rfl (Or.inl rfl)).1⟩

/-- C4: every emitted due row's month is free of existing deliveries:
if a row for (recipient, month) is in the projector output, then no
delivery of that recipient in the input has a `target_delivery_date`
falling in that month. -/
theorem dueRows_month_dedup (rs : List PlannerRecipient) (ds : List PlannerDelivery)
    (h : Nat) (t : CDate) (row : DueRow) (hrow : row ∈ dueRows rs ds h t)
    (d : PlannerDelivery) (hd : d ∈ ds) (hid : d.recipient_id = row.recipient_id)
    (c : CDate) (hc : d.target_delivery_date = some c) :
    c.ym ≠ row.due_month_key := by
  have hmem : row ∈ (rs.map (recipientDueRows t h ds)).flatten :=
    (List.perm_insertionSort rowLE _).subset hrow
  obtain ⟨l, hl, hrl⟩ := List.mem_flatten.mp hmem
  obtain ⟨rec, hrec, rfl⟩ := List.mem_map.mp hl
  obtain ⟨_, hrid, hcont, _, _⟩ := recipientDueRows_mem t h ds rec row hrl
  intro heq
  have hdh : d ∈ ds.filter (fun x => x.recipient_id == rec.id) := by
    rw [List.mem_filter]
    exact ⟨hd, beq_iff_eq.mpr (hid.trans hrid)⟩
  have hcym : c.ym ∈ (ds.filter (fun x => x.recipient_id == rec.id)).filterMap
      (fun r => r.target_delivery_date.map CDate.ym) :=
    List.mem_filterMap.mpr ⟨d, hdh, by rw [hc]; rfl⟩
  have hnot : row.due_month_key ∉ (ds.filter (fun x => x.recipient_id == rec.id)).filterMap
      (fun r => r.target_delivery_date.map CDate.ym) := by
    simpa using hcont
  rw [heq] at hcym
  exact hnot hcym

/-- Witness for `dueRows_month_dedup`: the April 2024 row emitted for
`recipC3` does not share a month with the existing January delivery. -/
theorem dueRows_month_dedup_witness :
    (rowC3 ∈ dueRows [recipC3] [delivC3] 6 ⟨monthIndex 2024 1, 15⟩) ∧
      (delivC3 ∈ [delivC3]) ∧
      (CDate.mk (monthIndex 2024 1) 31).ym ≠ rowC3.due_month_key :=
  ⟨by rw [show dueRows [recipC3] [delivC3] 6 ⟨monthIndex 2024 1, 15⟩ = [rowC3] from rfl]
      exact List.mem_singleton_self rowC3,
    by decide,
    dueRows_month_dedup [recipC3] [delivC3] 6 ⟨monthIndex 2024 1, 15⟩ rowC3
      (by rw [show dueRows [recipC3] [delivC3] 6 ⟨monthIndex 2024 1, 15⟩ = [rowC3] from rfl]
          exact List.mem_singleton_self rowC3)
      delivC3 (by decide) rfl ⟨monthIndex 2024 1, 31⟩ rfl⟩

/-- C5: a recipient with positive frequency and no delivery history
gets at least one due row; the first emitted row is for the current
month with target date equal to today, carries a true
first-delivery flag, and every later row for that recipient carries a
false flag. -/
theorem dueRows_no_history_first (today : CDate) (h : Nat) (ds : List PlannerDelivery)
    (rec : PlannerRecipient) (f : Int)
    (hf : rec.shipment_frequency_months = some f) (hpos : 0 < f)
    (hhist : ∀ d ∈ ds, d.recipient_id ≠ rec.id)
    (hd1 : 1 ≤ today.day) (hd2 : today.day ≤ daysInMonthYM today.ym) (hh : 1 ≤ h) :
    ∃ row0 rest, recipientDueRows today h ds rec = row0 :: rest ∧
      row0.is_first_delivery = true ∧
      row0.due_month_key = today.ym ∧
      row0.create_target_date = today ∧
      ∀ row ∈ rest, row.is_first_delivery = false := by
  have hfe : ds.filter (fun d => d.recipient_id == rec.id) = [] :=
    List.filter_eq_nil_iff.mpr (fun d hd => by simp [hhist d hd])
  obtain ⟨rest, heq, hrest⟩ := recipientDueRows_fresh today h ds rec f hf hpos hfe hd1 hd2 hh
  exact ⟨_, rest, heq, rfl, rfl, rfl, hrest⟩

/-- Witness for `dueRows_no_history_first` at a concrete fresh
recipient. -/
theorem dueRows_no_history_first_witness :
    (recipC1.shipment_frequency_months = some 1) ∧ ((0 : Int) < 1) ∧
      (∀ d ∈ ([] : List PlannerDelivery), d.recipient_id ≠ recipC1.id) ∧
      (1 ≤ (CDate.mk (monthIndex 2024 1) 15).day) ∧
      ((CDate.mk (monthIndex 2024 1) 15).day ≤
        daysInMonthYM (CDate.mk (monthIndex 2024 1) 15).ym) ∧
      (1 ≤ 6) ∧
      (∃ row0 rest, recipientDueRows ⟨monthIndex 2024 1, 15⟩ 6 [] recipC1 = row0 :: rest ∧
        row0.is_first_delivery = true ∧
        row0.due_month_key = (CDate.mk (monthIndex 2024 1) 15).ym ∧
        row0.create_target_date = ⟨monthIndex 2024 1, 15⟩ ∧
        ∀ row ∈ rest, row.is_first_delivery = false) :=
  ⟨rfl, by decide, by decide, by decide, by decide, by decide,
    dueRows_no_history_first ⟨monthIndex 2024 1, 15⟩ 6 [] recipC1 1 rfl (by decide)
      (by decide) (by decide) (by decide) (by decide)⟩

/-- C10: a recipient whose deliveries all have null requested, target,
shipped and completed dates is projected exactly like a recipient with
no deliveries at all: the per-recipient output coincides with the
no-history output, and its first row has a true first-delivery flag
and a null last-delivery date even though delivery records exist. -/
theorem dueRows_null_dates_no_history (today : CDate) (h : Nat)
    (ds : List PlannerDelivery) (rec : PlannerRecipient) (f : Int)
    (hf : rec.shipment_frequency_months = some f) (hpos : 0 < f)
    (hnull : ∀ d ∈ ds, d.recipient_id = rec.id →
      d.requested_date = none ∧ d.target_delivery_date = none ∧
      d.shipped_date = none ∧ d.completed_date = none)
    (hd1 : 1 ≤ today.day) (hd2 : today.day ≤ daysInMonthYM today.ym) (hh : 1 ≤ h) :
    recipientDueRows today h ds rec = recipientDueRows today h [] rec ∧
      ∃ rest, recipientDueRows today h ds rec =
          mkDueRow rec f false today today true today :: rest ∧
        (mkDueRow rec f false today today true today).is_first_delivery = true ∧
        (mkDueRow rec f false today today true today).last_delivery_date = none := by
  have hanch : latestAnchor (ds.filter (fun d => d.recipient_id == rec.id)) = none := by
    apply latestAnchor_eq_none
    intro d hd
    have hmem := List.mem_filter.mp hd
    obtain ⟨h1, h2, h3, h4⟩ := hnull d hmem.1 (beq_iff_eq.mp hmem.2)
    simp [deliveryAnchorDate, h1, h2, h3, h4]
  have hex : (ds.filter (fun d => d.recipient_id == rec.id)).filterMap
      (fun r => r.target_delivery_date.map CDate.ym) = [] := by
    apply List.filterMap_eq_nil_iff.mpr
    intro d hd
    have hmem := List.mem_filter.mp hd
    rw [(hnull d hmem.1 (beq_iff_eq.mp hmem.2)).2.1]
    rfl
  have heq : recipientDueRows today h ds rec = recipientDueRows today h [] rec := by
    simp only [recipientDueRows, hanch, hex, List.filter_nil]
    rfl
  refine ⟨heq, ?_⟩
  obtain ⟨rest, hfr, _⟩ :=
    recipientDueRows_fresh today h [] rec f hf hpos rfl hd1 hd2 hh
  rw [heq]
  exact ⟨rest, hfr, rfl, rfl⟩

/-- Witness for `dueRows_null_dates_no_history`: one delivery record
with all dates null. -/
theorem dueRows_null_dates_no_history_witness :
    (recipC1.shipment_frequency_months = some 1) ∧
      (∀ d ∈ [delivNull], d.recipient_id = recipC1.id →
        d.requested_date = none ∧ d.target_delivery_date = none ∧
        d.shipped_date = none ∧ d.completed_date = none) ∧
      recipientDueRows ⟨monthIndex 2024 1, 15⟩ 6 [delivNull] recipC1 =
        recipientDueRows ⟨monthIndex 2024 1, 15⟩ 6 [] recipC1 :=
  ⟨rfl, by decide,
    (dueRows_null_dates_no_history ⟨monthIndex 2024 1, 15⟩ 6 [delivNull] recipC1 1 rfl
      (by decide) (by decide) (by decide) (by decide) (by decide)).1⟩

/-- C2 (amended): in `createSelected`, every selected row whose
recipient+month pair exists in the re-checked state is dropped from the
insert; if at least one selected row survives, the insert proceeds
without error and the success message reports the number of skipped
rows; but if every selected row already exists, nothing is inserted
and an error message is shown instead of a success count. -/
theorem createSelected_skip_behavior (rows : List DueRow) (selKeys : List String)
    (exRows : List ExistingDeliveryRow)
    (hne : plannerToCreate rows selKeys ≠ []) :
    (∀ row ∈ plannerToCreate rows selKeys,
        (existingPairSet exRows).contains (row.recipient_id, row.due_month_key) = true →
        row ∉ dedupedRows (plannerToCreate rows selKeys) (existingPairSet exRows)) ∧
      (dedupedRows (plannerToCreate rows selKeys) (existingPairSet exRows) ≠ [] →
        (createSelected true rows selKeys (Except.ok exRows) none).error = none ∧
        (createSelected true rows selKeys (Except.ok exRows) none).successMessage =
          some (createdMessage
            (dedupedRows (plannerToCreate rows selKeys) (existingPairSet exRows)).length
            ((plannerToCreate rows selKeys).length -
              (dedupedRows (plannerToCreate rows selKeys) (existingPairSet exRows)).length)) ∧
        (createSelected true rows selKeys (Except.ok exRows) none).inserted =
          (dedupedRows (plannerToCreate rows selKeys) (existingPairSet exRows)).map
            toInsertPayload) ∧
      (dedupedRows (plannerToCreate rows selKeys) (existingPairSet exRows) = [] →
        (createSelected true rows selKeys (Except.ok exRows) none).error =
          some ("No new deliveries to create. Selected rows already exist.") ∧
        (createSelected true rows selKeys (Except.ok exRows) none).successMessage = none ∧
        (createSelected true rows selKeys (Except.ok exRows) none).inserted = []) := by
  have hni : (plannerToCreate rows selKeys).isEmpty = false := by
    simpa using hne
  refine ⟨?_, ?_, ?_⟩
  · intro row hrow hcont hmem
    have := (List.mem_filter.mp hmem).2
    rw [hcont] at this
    simp at this
  · intro hdne
    have hdni : (dedupedRows (plannerToCreate rows selKeys)
        (existingPairSet exRows)).isEmpty = false := by
      simpa using hdne
    simp [createSelected, hni, hdni]
  · intro hdeq
    have hdni : (dedupedRows (plannerToCreate rows selKeys)
        (existingPairSet exRows)).isEmpty = true := by
      simp [hdeq]
    simp [createSelected, hni, hdni]

/-- Witness for `createSelected_skip_behavior`: one duplicate row plus
one new row — one row created, one skipped, no error. -/
theorem createSelected_skip_behavior_witness :
    (plannerToCreate [rowC2, rowC2b] [("r-c2:24288"), ("r-c2:24290")] ≠ []) ∧
      (dedupedRows (plannerToCreate [rowC2, rowC2b] [("r-c2:24288"), ("r-c2:24290")])
        (existingPairSet [exC2]) ≠ []) ∧
      (createSelected true [rowC2, rowC2b] [("r-c2:24288"), ("r-c2:24290")]
        (Except.ok [exC2]) none).error = none :=
  ⟨by decide, by decide,
    ((createSelected_skip_behavior [rowC2, rowC2b] [("r-c2:24288"), ("r-c2:24290")] [exC2]
      (by decide)).2.1 (by decide)).1⟩

/-- C6: horizon monotonicity — with the same recipients, deliveries
and "today", widening the horizon from `h1` to `h2 ≥ h1` (both from
the horizon options) appends rows: the `h2` output is the `h1` output
followed by extra rows whose due months all lie after the last month
of the `h1` window. -/
theorem dueRows_horizon_monotone (rs : List PlannerRecipient) (ds : List PlannerDelivery)
    (today : CDate) (h1 h2 : Nat)
    (hm1 : h1 ∈ HORIZON_OPTIONS) (hm2 : h2 ∈ HORIZON_OPTIONS) (hle : h1 ≤ h2)
    (hv : today.day ≤ daysInMonthYM today.ym) :
    ∃ extra, dueRows rs ds h2 today = dueRows rs ds h1 today ++ extra ∧
      ∀ row ∈ extra, today.ym + (h1 : Int) - 1 < row.due_month_key := by
  have hPQ : ∀ a b : DueRow,
      decide (a.due_month_key ≤ today.ym + (h1 : Int) - 1) = true →
      decide (b.due_month_key ≤ today.ym + (h1 : Int) - 1) = false → rowLE a b := by
    intro a b ha hb
    simp only [decide_eq_true_eq, decide_eq_false_iff_not] at ha hb
    exact Or.inl (by omega)
  have hQP : ∀ a b : DueRow,
      decide (a.due_month_key ≤ today.ym + (h1 : Int) - 1) = false →
      decide (b.due_month_key ≤ today.ym + (h1 : Int) - 1) = true → ¬ rowLE a b := by
    intro a b ha hb hr
    simp only [decide_eq_true_eq, decide_eq_false_iff_not] at ha hb
    rcases hr with hr | ⟨hr, _⟩ <;> omega
  have hfil : ∀ rec ∈ rs, (recipientDueRows today h2 ds rec).filter
      (fun row => decide (row.due_month_key ≤ today.ym + (h1 : Int) - 1)) =
      recipientDueRows today h1 ds rec := by
    intro rec _
    obtain ⟨extraR, heqr, hgt⟩ := recipientDueRows_extend today h1 h2 hle hv ds rec
    rw [heqr, List.filter_append]
    have hg1 : (recipientDueRows today h1 ds rec).filter
        (fun row => decide (row.due_month_key ≤ today.ym + (h1 : Int) - 1)) =
        recipientDueRows today h1 ds rec := by
      apply List.filter_eq_self.mpr
      intro row hrow
      have hub := (recipientDueRows_mem today h1 ds rec row hrow).2.2.2.2
      simpa using hub
    have hg2 : extraR.filter
        (fun row => decide (row.due_month_key ≤ today.ym + (h1 : Int) - 1)) = [] := by
      apply List.filter_eq_nil_iff.mpr
      intro row hrow
      have hgtr := hgt row hrow
      simp only [decide_eq_true_eq]
      omega
    rw [hg1, hg2, List.append_nil]
  have hsplit := insertionSort_split rowLE
    (fun row => decide (row.due_month_key ≤ today.ym + (h1 : Int) - 1)) hPQ hQP
    ((rs.map (recipientDueRows today h2 ds)).flatten)
  have hflat := filter_flatten_map rs (recipientDueRows today h2 ds)
    (recipientDueRows today h1 ds)
    (fun row => decide (row.due_month_key ≤ today.ym + (h1 : Int) - 1)) hfil
  refine ⟨List.insertionSort rowLE (((rs.map (recipientDueRows today h2 ds)).flatten).filter
      (fun row => !(decide (row.due_month_key ≤ today.ym + (h1 : Int) - 1)))), ?_, ?_⟩
  · show dueRows rs ds h2 today = dueRows rs ds h1 today ++ _
    unfold dueRows
    rw [hsplit, hflat]
  · intro row hrow
    have hmem := (List.perm_insertionSort rowLE _).subset hrow
    have hP := (List.mem_filter.mp hmem).2
    simp only [Bool.not_eq_true', decide_eq_false_iff_not] at hP
    omega

/-- Witness for `dueRows_horizon_monotone` at horizons 3 and 6. -/
theorem dueRows_horizon_monotone_witness :
    (3 ∈ HORIZON_OPTIONS) ∧ (6 ∈ HORIZON_OPTIONS) ∧ (3 ≤ 6) ∧
      ((CDate.mk (monthIndex 2024 1) 15).day ≤
        daysInMonthYM (CDate.mk (monthIndex 2024 1) 15).ym) ∧
      ∃ extra, dueRows [recipC1] [] 6 ⟨monthIndex 2024 1, 15⟩ =
          dueRows [recipC1] [] 3 ⟨monthIndex 2024 1, 15⟩ ++ extra ∧
        ∀ row ∈ extra,
          (CDate.mk (monthIndex 2024 1) 15).ym + ((3 : Nat) : Int) - 1 < row.due_month_key :=
  ⟨by decide, by decide, by decide, by decide,
    dueRows_horizon_monotone [recipC1] [] ⟨monthIndex 2024 1, 15⟩ 3 6
      (by decide) (by decide) (by decide) (by decide)⟩

end MagicYarn
